import Mathlib

/-!
Verification of `altair/sphinxext/utils.py`.

The file embeds the two halves of the module:

* the execution half (`_CatchDisplay`, `exec_then_eval`): Python statements
  are modelled by an abstract-syntax fragment (`Stmt`, `Expr`, `Value`) with a
  deterministic small-step free semantics over an association-list namespace.
  `exec_then_eval` operates, as the source does after `ast.parse`, on the
  ordered list of top-level statements of a valid source text; runtime errors
  are modelled by `Except PyErr`.  The Python function mutates the namespace
  dict in place; the embedding threads the namespace explicitly and returns it.

* the splitting half (`_parse_source_file`, `get_docstring_and_rest`): file
  text is modelled as `List Char`; `crlf_to_lf` models the byte replace of
  CRLF by LF, `parseModule` models `ast.parse` on a representative fragment of
  Python (a leading triple-quoted string literal, blank lines, identifier /
  number / simple-assignment statement lines).  Files outside the fragment are
  reported as syntax errors by the model; files inside it agree with CPython.
  `get_docstring_and_rest` embeds the branch of the source that runs on every
  released interpreter: the attribute `docstring` does not exist on module
  nodes there, so the statement `docstring = node.docstring` raises
  AttributeError and the handler (the `except AttributeError` block) computes
  the result; the embedding inlines that handler.  The `isinstance(node,
  ast.Module)` guard is a tautology in the embedding, since the parser only
  produces module nodes, and the `hasattr(docstring, 'decode')` branch is dead
  on Python 3 (str has no decode); both are therefore omitted.

Byte-level reading and UTF-8 decoding, needed only for the Source Loader
claim, are modelled separately by `utf8Decode` and `_parse_source_file_io`.
-/

namespace Altair

/-! ## Values, expressions, statements: the ast fragment used by exec_then_eval -/

/-- A fragment of Python runtime values: `None`, integers and strings. -/
inductive Value
  | none
  | int (n : Int)
  | str (s : String)
  deriving DecidableEq, Repr

/-- A fragment of Python expressions: constants, name lookups and `+`. -/
inductive Expr
  | const (v : Value)
  | name (x : String)
  | binAdd (a b : Expr)
  deriving DecidableEq, Repr

/-- A fragment of Python top-level statements: assignments and bare
expression statements (`ast.Expr` nodes). -/
inductive Stmt
  | assign (x : String) (e : Expr)
  | exprStmt (e : Expr)
  deriving DecidableEq, Repr

/-- Python runtime exceptions that the modelled code can raise or propagate. -/
inductive PyErr
  | indexError
  | nameError
  | typeError
  | valueError (msg : List Char)
  | unicodeDecodeError
  | ioError
  deriving DecidableEq, Repr

/-- A namespace: the dict passed to `exec`, as an association list where the
most recent binding of a name comes first. -/
def NS : Type := List (String × Value)

instance : DecidableEq NS := by unfold NS; infer_instance

/-- Name lookup in a namespace (first binding wins). -/
def lookupNS : NS → String → Option Value
  | [], _ => Option.none
  | (y, v) :: rest, x => if y = x then some v else lookupNS rest x

/-- Evaluation of an expression against a namespace.  An unbound name raises
NameError; `+` on incompatible values raises TypeError. -/
def evalExpr (ns : NS) : Expr → Except PyErr Value
  | .const v => .ok v
  | .name x =>
    match lookupNS ns x with
    | some v => .ok v
    | Option.none => .error .nameError
  | .binAdd a b =>
    match evalExpr ns a with
    | .error e => .error e
    | .ok va =>
      match evalExpr ns b with
      | .error e => .error e
      | .ok vb =>
        match va, vb with
        | .int m, .int n => .ok (.int (m + n))
        | .str s, .str t => .ok (.str (s ++ t))
        | _, _ => .error .typeError

/-- One statement executed as a normal (non-interactive) execution unit:
`exec(compile(ast.Module([node]), filename, 'exec'), namespace)`.  A bare
expression statement is evaluated and its value discarded. -/
def execStmt (ns : NS) : Stmt → Except PyErr NS
  | .assign x e =>
    match evalExpr ns e with
    | .ok v => .ok ((x, v) :: ns)
    | .error err => .error err
  | .exprStmt e =>
    match evalExpr ns e with
    | .ok _ => .ok ns
    | .error err => .error err

/-- The `for node in to_exec` loop of `exec_then_eval`: statements are
executed individually, in source order, against the shared namespace;
the first failure propagates. -/
def execStmts : List Stmt → NS → Except PyErr NS
  | [], ns => .ok ns
  | s :: rest, ns =>
    match execStmt ns s with
    | .ok ns2 => execStmts rest ns2
    | .error err => .error err

/-! ## _CatchDisplay -/

/-- The value of `sys.displayhook`: either some ambient hook installed before
the scope was entered, or the `_CatchDisplay` instance itself. -/
inductive Hook
  | external (id : Nat)
  | catcher
  deriving DecidableEq, Repr

/-- The mutable state of a `_CatchDisplay` instance: `self.output`,
initialised to `None` by `__init__`. -/
structure CatchDisplay where
  output : Value
  deriving DecidableEq, Repr

/-- The `__init__` method: `self.output = None`. -/
def CatchDisplay_init : CatchDisplay := ⟨Value.none⟩

/-- The `__call__` method: `self.output = output`. -/
def CatchDisplay_call (_c : CatchDisplay) (output : Value) : CatchDisplay :=
  ⟨output⟩

/-- The `with catch_display:` protocol around a body that may read or write
`sys.displayhook` and may raise.  `__enter__` saves the current hook and
installs the instance; `__exit__` restores the saved hook unconditionally and
returns False, so an exception raised by the body propagates unchanged.  The
body is modelled as a function from the hook installed on entry to its result
(normal value or exception) and the hook state it leaves behind. -/
def withCatchDisplay {α : Type} (hook0 : Hook)
    (body : Hook → Except PyErr α × Hook) : Except PyErr α × Hook :=
  let old_hook := hook0
  let afterBody := body Hook.catcher
  (afterBody.1, old_hook)

/-- One statement executed in `'single'` (interactive) mode:
`exec(compile(ast.Interactive([node]), filename, 'single'), namespace)`.
A bare expression statement delivers its value to `sys.displayhook`, which
inside `exec_then_eval` is the `_CatchDisplay` instance. -/
def execSingle (ns : NS) (c : CatchDisplay) :
    Stmt → Except PyErr (NS × CatchDisplay)
  | .exprStmt e =>
    match evalExpr ns e with
    | .ok v => .ok (ns, CatchDisplay_call c v)
    | .error err => .error err
  | .assign x e =>
    match evalExpr ns e with
    | .ok v => .ok ((x, v) :: ns, c)
    | .error err => .error err

/-- The `for node in to_eval` loop inside the `with catch_display:` block. -/
def execInteractive : List Stmt → NS → CatchDisplay →
    Except PyErr (NS × CatchDisplay)
  | [], ns, c => .ok (ns, c)
  | s :: rest, ns, c =>
    match execSingle ns c s with
    | .ok (ns2, c2) => execInteractive rest ns2 c2
    | .error err => .error err

/-- Whether a statement is a bare expression statement:
`isinstance(node, ast.Expr)`. -/
def isExprStmt : Stmt → Bool
  | .exprStmt _ => true
  | _ => false

/-- `exec_then_eval(code, namespace, filename)` after `ast.parse`: the input
is the ordered list `tree.body` of top-level statements of a valid source
text.  Reading `tree.body[-1]` on an empty body raises IndexError.  The split
`tree.body[:-1]` / `tree.body[-1:]` is `dropLast` / the singleton of the last
element.  The function returns `catch_display.output` together with the final
namespace (which Python mutates in place).  The `filename` argument only
labels compiled code objects and plays no role in the result, so it is
omitted. -/
def exec_then_eval (tree : List Stmt) (ns0 : NS) :
    Except PyErr (Value × NS) :=
  match tree.getLast? with
  | Option.none => Except.error PyErr.indexError
  | some lastStmt =>
    let split := if isExprStmt lastStmt
      then (tree.dropLast, [lastStmt])
      else (tree, ([] : List Stmt))
    match execStmts split.1 ns0 with
    | .error err => .error err
    | .ok ns1 =>
      match execInteractive split.2 ns1 CatchDisplay_init with
      | .error err => .error err
      | .ok (ns2, c) => .ok (c.output, ns2)

/-! ## Text as lines: split and join on the newline character -/

/-- Splitting text at every newline, as Python `content.split('\n')` does:
the result has one entry per line and is never empty. -/
def splitNl : List Char → List (List Char)
  | [] => [[]]
  | c :: rest =>
    if c = '\n' then [] :: splitNl rest
    else
      match splitNl rest with
      | l :: ls => (c :: l) :: ls
      | [] => [[c]]

/-- Joining lines with newlines, as Python `'\n'.join(lines)` does. -/
def joinNl : List (List Char) → List Char
  | [] => []
  | [l] => l
  | l :: ls => l ++ '\n' :: joinNl ls

/-- The byte replace `content.replace(b'\r\n', b'\n')`: every CRLF pair is
replaced by a single LF, scanning left to right.  (On text this coincides
with the byte-level replace: CR and LF bytes never occur inside a multi-byte
UTF-8 sequence.) -/
def crlf_to_lf : List Char → List Char
  | [] => []
  | [c] => [c]
  | c1 :: c2 :: rest =>
    if c1 = '\r' ∧ c2 = '\n' then '\n' :: crlf_to_lf rest
    else c1 :: crlf_to_lf (c2 :: rest)

/-! ## The parser: a model of ast.parse on a fragment of Python -/

/-- What `get_docstring_and_rest` needs to know about the first top-level
statement of a module: either a bare string-literal expression together with
the 1-based line number of the last line of the literal (the `lineno` of the
node on the interpreters this code supports, see the source comment
"The last line of the string"), or some other kind of statement. -/
inductive ModStmt
  | strLit (s : List Char) (endLine : Nat)
  | other
  deriving DecidableEq, Repr

/-- An `ast.Module` node, abstracted to what the splitter inspects: the first
top-level statement, absent when the body is empty. -/
structure PyModule where
  first : Option ModStmt
  deriving DecidableEq, Repr

/-- Whether a line contains no double-quote character. -/
def noQuote (l : List Char) : Bool := l.all (fun c => c ≠ '"')

/-- If the line starts with three double quotes, the remainder of the line. -/
def afterQ3 : List Char → Option (List Char)
  | '"' :: '"' :: '"' :: rest => some rest
  | _ => Option.none

/-- If the line ends with three double quotes, the line without them. -/
def beforeCloseQ3 (l : List Char) : Option (List Char) :=
  match l.reverse with
  | '"' :: '"' :: '"' :: restRev => some restRev.reverse
  | _ => Option.none

/-- A character allowed in an identifier of the fragment. -/
def isIdentCh (c : Char) : Bool := c.isAlpha || c = '_'

/-- An identifier line of the fragment (a bare name expression). -/
def isIdentL (l : List Char) : Bool := !l.isEmpty && l.all isIdentCh

/-- A number line of the fragment (a literal expression). -/
def isNumL (l : List Char) : Bool := !l.isEmpty && l.all Char.isDigit

/-- Splitting a line at the first occurrence of the three characters
space, equals sign, space. -/
def splitAssign : List Char → Option (List Char × List Char)
  | [] => Option.none
  | ' ' :: '=' :: ' ' :: rest => some ([], rest)
  | c :: rest =>
    match splitAssign rest with
    | some (a, b) => some (c :: a, b)
    | Option.none => Option.none

/-- An assignment line of the fragment: `name = number` or `name = name`. -/
def isAssignL (l : List Char) : Bool :=
  match splitAssign l with
  | some (a, b) => isIdentL a && (isNumL b || isIdentL b)
  | Option.none => false

/-- A syntactically valid statement line of the fragment (or a blank line). -/
def lineOk (l : List Char) : Bool :=
  l.isEmpty || isNumL l || isIdentL l || isAssignL l

/-- All lines after the first statement parse in the fragment. -/
def allStmtsOk (ls : List (List Char)) : Bool := ls.all lineOk

/-- Scanning for the closing line of a triple-quoted literal opened on an
earlier line: middle lines must contain no quote, and the closing line is a
quote-free prefix followed by the three closing quotes.  Returns the
collected value lines, the 0-based index of the closing line and the lines
after it; an unterminated literal is a syntax error. -/
def scanCloseQ3 : List (List Char) → Nat →
    Option (List (List Char) × Nat × List (List Char))
  | [], _ => Option.none
  | l :: rest, j =>
    match beforeCloseQ3 l with
    | some mid => if noQuote mid then some ([mid], j, rest) else Option.none
    | Option.none =>
      if noQuote l then
        match scanCloseQ3 rest (j + 1) with
        | some (parts, k, after) => some (l :: parts, k, after)
        | Option.none => Option.none
      else Option.none

/-- Completing a triple-quoted string literal whose opening quotes begin
line `i` (0-based) with remainder `t` on that line: either the literal closes
on the same line, or on a later line found by `scanCloseQ3`.  Returns the
string value, the 0-based index of the closing line and the lines after. -/
def finishDocstring (t : List Char) (rest : List (List Char)) (i : Nat) :
    Option (List Char × Nat × List (List Char)) :=
  match beforeCloseQ3 t with
  | some mid => if noQuote mid then some (mid, i, rest) else Option.none
  | Option.none =>
    if noQuote t then
      match scanCloseQ3 rest (i + 1) with
      | some (parts, k, after) => some (joinNl (t :: parts), k, after)
      | Option.none => Option.none
    else Option.none

/-- Parsing the lines of a file, `i` being the 0-based index of the first
line in `ls`: leading blank lines are skipped; a first statement starting
with three quotes is a string-literal expression; any other first statement
must be a valid line of the fragment; every later line must also be valid. -/
def parseFrom : List (List Char) → Nat → Option PyModule
  | [], _ => some ⟨Option.none⟩
  | l :: rest, i =>
    if l.isEmpty then parseFrom rest (i + 1)
    else
      match afterQ3 l with
      | some t =>
        match finishDocstring t rest i with
        | some (value, endIdx, after) =>
          if allStmtsOk after then some ⟨some (ModStmt.strLit value (endIdx + 1))⟩
          else Option.none
        | Option.none => Option.none
      | Option.none =>
        if lineOk l && allStmtsOk rest then some ⟨some ModStmt.other⟩
        else Option.none

/-- The model of `ast.parse` on normalized content: `some` a module node on
success, `none` for a SyntaxError. -/
def parseModule (content : List Char) : Option PyModule :=
  parseFrom (splitNl content) 0

/-! ## Source Loader and Docstring Splitter -/

/-- The module constant `SYNTAX_ERROR_DOCSTRING`. -/
def SYNTAX_ERROR_DOCSTRING : List Char :=
  ("\nSyntaxError\n===========\nExample script with invalid Python syntax\n").toList

/-- `_parse_source_file` with the file content already read: normalize line
endings, then parse; the `except SyntaxError` conversion is the `Option` in
the first component.  Byte reading and UTF-8 decoding are modelled by
`_parse_source_file_io`. -/
def _parse_source_file (raw : List Char) : Option PyModule × List Char :=
  let content := crlf_to_lf raw
  (parseModule content, content)

/-- The message of the ValueError raised when no docstring is found, with
the file name formatted in. -/
def missingDocstringMsg (filename : List Char) : List Char :=
  ("Could not find docstring in file \"").toList ++ filename ++
    ("\". A docstring is required for the example gallery.").toList

/-- Python `content.split('\n', n)[-1]`: the text after the first `n`
newlines, or the last line when the text has fewer than `n` newlines. -/
def pySplitTail (content : List Char) (n : Nat) : List Char :=
  let lines := splitNl content
  joinNl (lines.drop (min n (lines.length - 1)))

/-- `get_docstring_and_rest(filename)`, with the file content passed in.
On a syntax error the sentinel triple is returned.  Otherwise the handler of
the `except AttributeError` block runs (see the module docstring): if the
first statement is a bare string literal, the docstring is its value, `rest`
is `content.split('\n', lineno)[-1]` for `lineno` the last line of the
literal, and the returned line number is `lineno + 1`; otherwise the
docstring is empty.  An empty docstring raises ValueError naming the file. -/
def get_docstring_and_rest (filename raw : List Char) :
    Except PyErr (List Char × List Char × Nat) :=
  let parsed := _parse_source_file raw
  match parsed.1 with
  | Option.none => .ok (SYNTAX_ERROR_DOCSTRING, parsed.2, 1)
  | some node =>
    match node.first with
    | some (ModStmt.strLit s endLine) =>
      if s = [] then .error (.valueError (missingDocstringMsg filename))
      else .ok (s, pySplitTail parsed.2 endLine, endLine + 1)
    | _ => .error (.valueError (missingDocstringMsg filename))

/-- The prefix of a text consumed when the remainder starts at line `k + 1`:
the lines through line `k`.  When the text extends past line `k` this is the
first `k` lines, each with its terminating newline; otherwise it is the whole
text. -/
def headerThrough (content : List Char) (k : Nat) : List Char :=
  let lines := splitNl content
  if k < lines.length then joinNl (lines.take k) ++ ['\n']
  else content

/-! ## Byte-level reading and decoding, for the Source Loader claim -/

/-- A UTF-8 continuation byte. -/
def isContB (b : Nat) : Bool := 0x80 ≤ b && b ≤ 0xBF

/-- Strict UTF-8 decoding of a byte list, as Python `bytes.decode('utf-8')`:
`none` models a UnicodeDecodeError (truncated sequences, stray continuation
bytes, overlong forms, surrogates and out-of-range values are rejected). -/
def utf8Decode : List Nat → Option (List Char)
  | [] => some []
  | b :: rest =>
    if b ≤ 0x7F then
      match utf8Decode rest with
      | some cs => some (Char.ofNat b :: cs)
      | Option.none => Option.none
    else if 0xC2 ≤ b && b ≤ 0xDF then
      match rest with
      | b2 :: rest2 =>
        if isContB b2 then
          match utf8Decode rest2 with
          | some cs => some (Char.ofNat ((b - 0xC0) * 64 + (b2 - 0x80)) :: cs)
          | Option.none => Option.none
        else Option.none
      | [] => Option.none
    else if 0xE0 ≤ b && b ≤ 0xEF then
      match rest with
      | b2 :: b3 :: rest3 =>
        if isContB b2 && isContB b3 &&
            (decide (b ≠ 0xE0) || decide (0xA0 ≤ b2)) &&
            (decide (b ≠ 0xED) || decide (b2 ≤ 0x9F)) then
          match utf8Decode rest3 with
          | some cs =>
            some (Char.ofNat ((b - 0xE0) * 4096 + (b2 - 0x80) * 64 + (b3 - 0x80)) :: cs)
          | Option.none => Option.none
        else Option.none
      | _ => Option.none
    else if 0xF0 ≤ b && b ≤ 0xF4 then
      match rest with
      | b2 :: b3 :: b4 :: rest4 =>
        if isContB b2 && isContB b3 && isContB b4 &&
            (decide (b ≠ 0xF0) || decide (0x90 ≤ b2)) &&
            (decide (b ≠ 0xF4) || decide (b2 ≤ 0x8F)) then
          match utf8Decode rest4 with
          | some cs =>
            some (Char.ofNat ((b - 0xF0) * 262144 + (b2 - 0x80) * 4096 +
              (b3 - 0x80) * 64 + (b4 - 0x80)) :: cs)
          | Option.none => Option.none
        else Option.none
      | _ => Option.none
    else Option.none

/-- The byte replace `content.replace(b'\r\n', b'\n')` on raw bytes. -/
def crlfToLfBytes : List Nat → List Nat
  | [] => []
  | [b] => [b]
  | b1 :: b2 :: rest =>
    if b1 = 13 ∧ b2 = 10 then 10 :: crlfToLfBytes rest
    else b1 :: crlfToLfBytes (b2 :: rest)

/-- `_parse_source_file(filename)` including the I/O steps: `file` is the
byte content of the file, absent when `open` fails (the exception
propagates).  After normalizing line endings, `ast.parse(content)` on
undecodable bytes raises SyntaxError, which the handler catches, and then
`content.decode('utf-8')` raises UnicodeDecodeError, which nothing catches
(only SyntaxError is); so a decode failure always propagates, and on
decodable content the outcome is decided by parsing the decoded text, with a
SyntaxError converted into an absent tree alongside the decoded text. -/
def _parse_source_file_io (file : Option (List Nat)) :
    Except PyErr (Option PyModule × List Char) :=
  match file with
  | Option.none => .error .ioError
  | some raw =>
    let content := crlfToLfBytes raw
    match utf8Decode content with
    | Option.none => .error .unicodeDecodeError
    | some text =>
      match parseModule text with
      | some node => .ok (some node, text)
      | Option.none => .ok (Option.none, text)

/-! ## Helper lemmas -/

theorem splitNl_ne_nil (s : List Char) : splitNl s ≠ [] := by
  induction s with
  | nil => simp [splitNl]
  | cons c rest ih =>
    simp only [splitNl]
    split
    · simp
    · cases h : splitNl rest with
      | nil => exact absurd h ih
      | cons l ls => simp

theorem joinNl_splitNl (s : List Char) : joinNl (splitNl s) = s := by
  induction s with
  | nil => rfl
  | cons c rest ih =>
    simp only [splitNl]
    split
    · rename_i hc
      subst hc
      cases h : splitNl rest with
      | nil => exact absurd h (splitNl_ne_nil rest)
      | cons l ls =>
        rw [h] at ih
        cases ls with
        | nil => simp [joinNl] at ih ⊢; exact ih
        | cons l2 ls2 => simp [joinNl] at ih ⊢; exact ih
    · cases h : splitNl rest with
      | nil => exact absurd h (splitNl_ne_nil rest)
      | cons l ls =>
        rw [h] at ih
        cases ls with
        | nil => simp [joinNl] at ih ⊢; exact ih
        | cons l2 ls2 => simp [joinNl] at ih ⊢; exact ih

theorem joinNl_cons_ne (l : List Char) (ls : List (List Char)) (h : ls ≠ []) :
    joinNl (l :: ls) = l ++ '\n' :: joinNl ls := by
  cases ls with
  | nil => exact absurd rfl h
  | cons l2 ls2 => rfl

theorem joinNl_append (a b : List (List Char)) (ha : a ≠ []) (hb : b ≠ []) :
    joinNl (a ++ b) = joinNl a ++ '\n' :: joinNl b := by
  induction a with
  | nil => exact absurd rfl ha
  | cons l ls ih =>
    cases ls with
    | nil =>
      simp only [List.nil_append, List.cons_append]
      rw [joinNl_cons_ne l b hb]
      rfl
    | cons l2 ls2 =>
      have hih := ih (by simp)
      simp only [List.cons_append] at hih ⊢
      rw [joinNl_cons_ne l (l2 :: (ls2 ++ b)) (by simp),
        joinNl_cons_ne l (l2 :: ls2) (by simp), hih]
      simp

theorem parseFrom_strLit_pos (ls : List (List Char)) (i : Nat) (m : PyModule)
    (s : List Char) (e : Nat) (hp : parseFrom ls i = some m)
    (hf : m.first = some (ModStmt.strLit s e)) : 1 ≤ e := by
  induction ls generalizing i with
  | nil =>
    simp only [parseFrom] at hp
    cases hp
    simp at hf
  | cons l rest ih =>
    simp only [parseFrom] at hp
    split at hp
    · exact ih _ hp
    · split at hp
      · split at hp
        · split at hp
          · cases hp
            rename_i value endIdx after _ _ _
            simp at hf
            omega
          · cases hp
        · cases hp
      · split at hp
        · cases hp
          simp at hf
        · cases hp

/-! ## Claim theorems -/

/-- C1.  For every syntactically valid source text whose last top-level
statement is a bare expression `E`, `exec_then_eval` executes all preceding
statements in source order against the shared namespace (`execStmts`) and
returns the value obtained by evaluating `E` in the resulting namespace. -/
theorem C1_split_execute_tail (body : List Stmt) (e : Expr) (ns0 ns1 : NS)
    (h : execStmts body ns0 = .ok ns1) :
    exec_then_eval (body ++ [Stmt.exprStmt e]) ns0
      = (evalExpr ns1 e).map (fun v => (v, ns1)) := by
  simp only [exec_then_eval, List.getLast?_concat, List.dropLast_concat,
    isExprStmt, if_true]
  rw [h]
  cases hv : evalExpr ns1 e <;>
    simp [execInteractive, execSingle, hv, CatchDisplay_call, CatchDisplay_init,
      Except.map]

theorem C1_split_execute_tail_witness :
    execStmts [Stmt.assign "x" (.const (.int 1))] ([] : NS)
        = .ok [("x", Value.int 1)]
      ∧ exec_then_eval
          [Stmt.assign "x" (.const (.int 1)), Stmt.exprStmt (.name "x")]
          ([] : NS)
        = .ok (Value.int 1, [("x", Value.int 1)]) := by
  refine ⟨rfl, ?_⟩
  have := C1_split_execute_tail [Stmt.assign "x" (.const (.int 1))]
    (.name "x") ([] : NS) [("x", Value.int 1)] rfl
  simpa using this

/-- C2.  For every syntactically valid source text whose last top-level
statement is not a bare expression, `exec_then_eval` returns `None` and every
statement of the text has been executed against the supplied namespace, whose
final state is returned. -/
theorem C2_split_execute_no_tail (tree : List Stmt) (ns0 : NS) (l : Stmt)
    (hl : tree.getLast? = some l) (hne : isExprStmt l = false) :
    exec_then_eval tree ns0
      = (execStmts tree ns0).map (fun ns1 => (Value.none, ns1)) := by
  simp only [exec_then_eval, hl, hne]
  cases hx : execStmts tree ns0 <;>
    simp [execInteractive, CatchDisplay_init, Except.map, hx]

theorem C2_split_execute_no_tail_witness :
    ([Stmt.assign "x" (.const (.int 1))] : List Stmt).getLast?
        = some (Stmt.assign "x" (.const (.int 1)))
      ∧ exec_then_eval [Stmt.assign "x" (.const (.int 1))] ([] : NS)
        = .ok (Value.none, [("x", Value.int 1)]) := by
  refine ⟨rfl, ?_⟩
  have := C2_split_execute_no_tail [Stmt.assign "x" (.const (.int 1))]
    ([] : NS) (Stmt.assign "x" (.const (.int 1))) rfl rfl
  simpa using this

/-- C6.  Every use of the `_CatchDisplay` scope restores the previous
`sys.displayhook` on exit, whether the body returns normally or raises, and
in the exceptional case the exception still propagates to the caller. -/
theorem C6_catch_display_restores (hook0 : Hook)
    (body : Hook → Except PyErr Value × Hook) :
    (withCatchDisplay hook0 body).2 = hook0
      ∧ (∀ err, (body Hook.catcher).1 = .error err →
          (withCatchDisplay hook0 body).1 = .error err)
      ∧ (∀ v, (body Hook.catcher).1 = .ok v →
          (withCatchDisplay hook0 body).1 = .ok v) := by
  refine ⟨rfl, ?_, ?_⟩ <;> intro x hx <;> simp [withCatchDisplay, hx]

theorem C6_catch_display_restores_witness :
    (withCatchDisplay (Hook.external 7)
        (fun _ => ((Except.error PyErr.typeError : Except PyErr Value), Hook.external 9))).2
      = Hook.external 7
    ∧ (withCatchDisplay (Hook.external 7)
        (fun _ => ((Except.error PyErr.typeError : Except PyErr Value), Hook.external 9))).1
      = Except.error PyErr.typeError :=
  ⟨(C6_catch_display_restores (Hook.external 7)
      (fun _ => ((Except.error PyErr.typeError : Except PyErr Value), Hook.external 9))).1,
    (C6_catch_display_restores (Hook.external 7)
      (fun _ => ((Except.error PyErr.typeError : Except PyErr Value), Hook.external 9))).2.1
      PyErr.typeError rfl⟩

/-- C10.  For a syntactically valid source text with zero top-level
statements, `exec_then_eval` raises IndexError when reading `tree.body[-1]`,
rather than returning no value. -/
theorem C10_empty_body_index_error (ns0 : NS) :
    exec_then_eval [] ns0 = .error .indexError := rfl

/-- C4.  `get_docstring_and_rest` returns the sentinel docstring together
with the decoded content and line number 1, without raising, exactly when the
content fails to parse; a successful parse never produces this triple (the
success path always reports a line number of at least 2, so the sentinel is
never mixed with a real docstring). -/
theorem C4_syntax_error_sentinel (filename raw : List Char) :
    parseModule (crlf_to_lf raw) = Option.none
      ↔ get_docstring_and_rest filename raw
          = .ok (SYNTAX_ERROR_DOCSTRING, crlf_to_lf raw, 1) := by
  constructor
  · intro h
    simp [get_docstring_and_rest, _parse_source_file, h]
  · intro h
    cases hp : parseModule (crlf_to_lf raw) with
    | none => rfl
    | some m =>
      exfalso
      simp only [get_docstring_and_rest, _parse_source_file, hp] at h
      cases hf : m.first with
      | none => simp [hf] at h
      | some st =>
        cases st with
        | strLit s e =>
          by_cases hs : s = []
          · simp [hf, hs] at h
          · have hpos := parseFrom_strLit_pos _ 0 m s e hp hf
            simp [hf, hs] at h
            omega
        | other => simp [hf] at h

/-- C5.  For every syntactically valid file whose first top-level statement
is not a bare string literal (the empty file included),
`get_docstring_and_rest` raises a ValueError whose message names the
offending file path. -/
theorem C5_missing_docstring (filename raw : List Char) (m : PyModule)
    (hp : parseModule (crlf_to_lf raw) = some m)
    (hns : ∀ s e, m.first ≠ some (ModStmt.strLit s e)) :
    get_docstring_and_rest filename raw
        = .error (.valueError (missingDocstringMsg filename))
      ∧ ∃ pre post, missingDocstringMsg filename = pre ++ filename ++ post := by
  refine ⟨?_, ⟨_, _, rfl⟩⟩
  simp only [get_docstring_and_rest, _parse_source_file, hp]

theorem C5_missing_docstring_witness :
    get_docstring_and_rest ("ex.py".toList) ("x = 1\n".toList)
      = .error (.valueError (missingDocstringMsg ("ex.py".toList))) :=
  (C5_missing_docstring ("ex.py".toList) ("x = 1\n".toList)
    ⟨some ModStmt.other⟩ (by decide)
    (by intro s e h; simp at h)).1

/-- C7.  For a file whose content is `\x22\x22\x22doc\x22\x22\x22`, a
newline, `x = 1` and a newline, `get_docstring_and_rest` returns docstring
`doc`, rest `x = 1` with a trailing newline, and start line 2. -/
theorem C7_single_line_docstring (filename : List Char) :
    get_docstring_and_rest filename ("\"\"\"doc\"\"\"\nx = 1\n".toList)
      = .ok ("doc".toList, "x = 1\n".toList, 2) := rfl

/-- C3 as stated is false: for the file whose content is the nine characters
of a triple-quoted `doc` literal with no trailing newline, the returned rest
is the entire content (Python `content.split('\n', 1)` performs no split on a
text without a newline and `[-1]` yields the whole text), so the consumed
header through line `start_line - 1 = 1` concatenated with rest duplicates
the line instead of reconstructing the content. -/
theorem C3_roundtrip_counterexample :
    get_docstring_and_rest ("ex.py".toList) ("\"\"\"doc\"\"\"".toList)
        = .ok ("doc".toList, "\"\"\"doc\"\"\"".toList, 2)
      ∧ headerThrough (crlf_to_lf ("\"\"\"doc\"\"\"".toList)) (2 - 1)
          ++ "\"\"\"doc\"\"\"".toList
        ≠ crlf_to_lf ("\"\"\"doc\"\"\"".toList) := by
  exact ⟨rfl, by decide⟩

/-- C3, amended.  For every file with a valid (nonempty) leading docstring
whose last line is not the final line of the file — that is, a newline
follows the line on which the docstring literal ends — concatenating the
consumed header of the normalized content (the lines through
`start_line - 1`) with the returned rest reconstructs exactly the normalized
content. -/
theorem C3_roundtrip_amended (filename raw : List Char) (m : PyModule)
    (s : List Char) (e : Nat)
    (hp : parseModule (crlf_to_lf raw) = some m)
    (hf : m.first = some (ModStmt.strLit s e))
    (hs : s ≠ [])
    (hlt : e < (splitNl (crlf_to_lf raw)).length) :
    get_docstring_and_rest filename raw
        = .ok (s, pySplitTail (crlf_to_lf raw) e, e + 1)
      ∧ headerThrough (crlf_to_lf raw) (e + 1 - 1)
          ++ pySplitTail (crlf_to_lf raw) e
        = crlf_to_lf raw := by
  have hpos : 1 ≤ e := parseFrom_strLit_pos _ 0 m s e hp hf
  constructor
  · simp [get_docstring_and_rest, _parse_source_file, hp, hf, hs]
  · have he1 : e + 1 - 1 = e := rfl
    rw [he1]
    unfold headerThrough pySplitTail
    simp only []
    rw [if_pos hlt]
    have hmin : min e ((splitNl (crlf_to_lf raw)).length - 1) = e := by omega
    rw [hmin]
    have htake : (splitNl (crlf_to_lf raw)).take e ≠ [] := by
      rw [← List.length_pos]
      rw [List.length_take]
      omega
    have hdrop : (splitNl (crlf_to_lf raw)).drop e ≠ [] := by
      rw [← List.length_pos]
      rw [List.length_drop]
      omega
    calc joinNl ((splitNl (crlf_to_lf raw)).take e) ++ ['\n']
            ++ joinNl ((splitNl (crlf_to_lf raw)).drop e)
        = joinNl ((splitNl (crlf_to_lf raw)).take e
            ++ (splitNl (crlf_to_lf raw)).drop e) := by
          rw [joinNl_append _ _ htake hdrop]
          simp
      _ = joinNl (splitNl (crlf_to_lf raw)) := by rw [List.take_append_drop]
      _ = crlf_to_lf raw := joinNl_splitNl _

theorem C3_roundtrip_amended_witness :
    parseModule (crlf_to_lf ("\"\"\"doc\"\"\"\nx = 1\n".toList))
        = some ⟨some (ModStmt.strLit ("doc".toList) 1)⟩
      ∧ headerThrough (crlf_to_lf ("\"\"\"doc\"\"\"\nx = 1\n".toList)) 1
          ++ pySplitTail (crlf_to_lf ("\"\"\"doc\"\"\"\nx = 1\n".toList)) 1
        = crlf_to_lf ("\"\"\"doc\"\"\"\nx = 1\n".toList) := by
  refine ⟨by decide, ?_⟩
  have := C3_roundtrip_amended ("ex.py".toList) ("\"\"\"doc\"\"\"\nx = 1\n".toList)
    ⟨some (ModStmt.strLit ("doc".toList) 1)⟩ ("doc".toList) 1
    (by decide) (by decide) (by decide) (by decide)
  simpa using this.2

/-- C8.  `get_docstring_and_rest` depends on file content only through its
CRLF-normalized form, so two contents that differ only in that one uses CRLF
line endings where the other uses LF (their normal forms coincide) yield
identical triples. -/
theorem C8_crlf_lf_agree (filename a b : List Char)
    (h : crlf_to_lf a = crlf_to_lf b) :
    get_docstring_and_rest filename a = get_docstring_and_rest filename b := by
  simp [get_docstring_and_rest, _parse_source_file, h]

theorem C8_crlf_lf_agree_witness :
    crlf_to_lf ("\"\"\"d\"\"\"\r\nx\r\n".toList)
        = crlf_to_lf ("\"\"\"d\"\"\"\nx\n".toList)
      ∧ get_docstring_and_rest ("ex.py".toList) ("\"\"\"d\"\"\"\r\nx\r\n".toList)
        = get_docstring_and_rest ("ex.py".toList) ("\"\"\"d\"\"\"\nx\n".toList) :=
  ⟨by decide,
    C8_crlf_lf_agree ("ex.py".toList) ("\"\"\"d\"\"\"\r\nx\r\n".toList)
      ("\"\"\"d\"\"\"\nx\n".toList) (by decide)⟩

/-- C9.  The Source Loader never raises on a syntax error: on a readable,
UTF-8-decodable file whose normalized content does not parse it returns an
absent tree together with the decoded text, while a decode failure
(UnicodeDecodeError) and an unreadable file (the `open` failure) propagate as
exceptions. -/
theorem C9_source_loader (raw : List Nat) (text : List Char) :
    (utf8Decode (crlfToLfBytes raw) = some text →
        parseModule text = Option.none →
        _parse_source_file_io (some raw) = .ok (Option.none, text))
      ∧ (utf8Decode (crlfToLfBytes raw) = Option.none →
        _parse_source_file_io (some raw) = .error .unicodeDecodeError)
      ∧ _parse_source_file_io Option.none = .error .ioError := by
  refine ⟨?_, ?_, rfl⟩
  · intro hd hparse
    simp [_parse_source_file_io, hd, hparse]
  · intro hd
    simp [_parse_source_file_io, hd]

theorem C9_source_loader_witness :
    utf8Decode (crlfToLfBytes [63, 10]) = some ("?\n".toList)
      ∧ parseModule ("?\n".toList) = Option.none
      ∧ _parse_source_file_io (some [63, 10])
        = .ok (Option.none, "?\n".toList) :=
  ⟨by decide, by decide,
    (C9_source_loader [63, 10] ("?\n".toList)).1 (by decide) (by decide)⟩

end Altair
